import Mathlib

/-!
Verification of the AVES timing / media-arrangement core.

This file is a shallow embedding, in Lean 4, of the arrangement model
(Clip, Track, Timeline), the master clock of the audio player, the frame
cache and the export pipeline of the AVES video editor, together with
theorems settling the behavioural claims made about them.

Conventions of the embedding:
* The Rust type `Time = i64` (nanoseconds) is modelled as `Int`.  All the
  verified operations stay far from the `i64` boundaries on the inputs the
  claims are about, and Rust integer overflow would panic (debug) rather
  than wrap, so no modular reduction is applied.
* Rust `&mut self` methods become functions returning the updated value.
  A method that can fail returns the updated value paired with an
  `Option` error (mirroring `Result<(), E>` plus the mutated receiver).
* `Vec<Clip>` becomes `List Clip`; `HashMap` becomes an association list
  carrying the map contents in insertion order, with the (unspecified)
  hash-map iteration order passed explicitly where the code iterates over
  the map.
* `sort_by_key` (a stable sort) is modelled by `List.insertionSort` on
  the same key: any two stable sorting algorithms agree on every input,
  so this is extensionally the Rust behaviour.
-/

namespace AVES

/- Nanosecond time, `src/core/time.rs`: `pub type Time = i64`, is modelled
as `Int` directly (written `Int` below wherever the Rust writes `Time`). -/

/-- A clip, `src/core/clip.rs` (the `src/timeline/clip.rs` struct has the
identical fields).  `source_path` keeps only the path string of `PathBuf`. -/
structure Clip where
  id : Nat
  source_path : String
  in_point : Int
  out_point : Int
  timeline_start : Int
  timeline_end : Int
  stream_index : Nat
deriving DecidableEq

/-- `Clip::new` of `src/core/clip.rs` (lines 21-43): derives
`timeline_end = timeline_start + (out_point - in_point)`.  It performs no
validation of `out_point` against `in_point` and cannot fail. -/
def Clip.new (id : Nat) (source_path : String) (in_point out_point timeline_start : Int)
    (stream_index : Nat) : Clip :=
  let duration := out_point - in_point
  let timeline_end := timeline_start + duration
  { id := id, source_path := source_path, in_point := in_point, out_point := out_point,
    timeline_start := timeline_start, timeline_end := timeline_end,
    stream_index := stream_index }

/-- `Clip::new` of `src/timeline/clip.rs` (lines 40-62).  The Rust function
`assert!(out_point > in_point)` and PANICS on violation (documented
"# Panics" and covered by a `should_panic` test); `none` models that panic,
not an error value returned to the caller. -/
def TimelineClip.new (id : Nat) (source_path : String)
    (in_point out_point timeline_start : Int) (stream_index : Nat) : Option Clip :=
  if in_point < out_point then
    some (Clip.new id source_path in_point out_point timeline_start stream_index)
  else
    none

/-- `Clip::duration` (`src/core/clip.rs` lines 46-48). -/
def Clip.duration (c : Clip) : Int :=
  c.out_point - c.in_point

/-- `Clip::contains` (`src/core/clip.rs` lines 51-53): closed interval on
both ends. -/
def Clip.contains (c : Clip) (timeline_position : Int) : Bool :=
  decide (timeline_position ≥ c.timeline_start) &&
    decide (timeline_position ≤ c.timeline_end)

/-- `Clip::timeline_to_source` (`src/core/clip.rs` lines 57-65): `None`
unless `contains` holds, else `in_point + (t - timeline_start)`. -/
def Clip.timeline_to_source (c : Clip) (timeline_position : Int) : Option Int :=
  if c.contains timeline_position then
    let offset := timeline_position - c.timeline_start
    some (c.in_point + offset)
  else
    none

/-- `Clip::source_to_timeline` (`src/core/clip.rs` lines 69-77). -/
def Clip.source_to_timeline (c : Clip) (source_position : Int) : Option Int :=
  if source_position < c.in_point ∨ source_position > c.out_point then
    none
  else
    let offset := source_position - c.in_point
    some (c.timeline_start + offset)

/-- `Clip::overlaps_with` (`src/core/clip.rs` lines 123-126). -/
def Clip.overlaps_with (c other : Clip) : Bool :=
  !(decide (c.timeline_end ≤ other.timeline_start) ||
    decide (other.timeline_end ≤ c.timeline_start))

/-- `TrackError` (`src/core/track.rs` lines 10-13): the payload is the field
named `clip_id` of the `Overlap` variant. -/
inductive TrackError where
  | Overlap (clip_id : Nat)
deriving DecidableEq

/-- `TrackType` (`src/core/track.rs` lines 33-36). -/
inductive TrackType where
  | Video
  | Audio
deriving DecidableEq

/-- `Track` (`src/core/track.rs` lines 43-49).  The `volume : f32` field is
omitted: it is floating point and none of the verified claims touch it. -/
structure Track where
  id : Nat
  track_type : TrackType
  clips : List Clip
  muted : Bool
deriving DecidableEq

/-- `Track::new` (`src/core/track.rs` lines 57-65). -/
def Track.new (id : Nat) (track_type : TrackType) : Track :=
  { id := id, track_type := track_type, clips := [], muted := false }

/-- `Track::add_clip` (`src/core/track.rs` lines 75-86): scans existing clips
for an overlap; on the first hit returns `Err(TrackError::Overlap { clip_id:
clip.id })` — note the id is the id of the NEW clip being inserted — without
touching `self.clips`; otherwise pushes the clip and stable-sorts by
`timeline_start`. -/
def Track.add_clip (t : Track) (clip : Clip) : Track × Option TrackError :=
  match t.clips.find? (fun existing => clip.overlaps_with existing) with
  | some _ => (t, some (TrackError.Overlap clip.id))
  | none =>
    let sorted := List.insertionSort
      (fun a b => a.timeline_start ≤ b.timeline_start) (t.clips ++ [clip])
    ({ t with clips := sorted }, none)

/-- `Track::remove_clip` (`src/core/track.rs` lines 91-97). -/
def Track.remove_clip (t : Track) (clip_id : Nat) : Track × Option Clip :=
  match t.clips.findIdx? (fun c => c.id == clip_id) with
  | some pos => ({ t with clips := t.clips.eraseIdx pos }, t.clips[pos]?)
  | none => (t, none)

/-- `Track::clip_at` (`src/core/track.rs` lines 103-107): linear scan, first
clip whose range contains the position. -/
def Track.clip_at (t : Track) (timeline_position : Int) : Option Clip :=
  t.clips.find? (fun clip => clip.contains timeline_position)

/-- `Track::clips_in_range` (`src/core/track.rs` lines 112-120). -/
def Track.clips_in_range (t : Track) (start stop : Int) : List Clip :=
  t.clips.filter (fun clip =>
    decide (clip.timeline_start ≤ stop) && decide (clip.timeline_end ≥ start))

/-- `Track::duration` (`src/core/track.rs` lines 125-131): maximum
`timeline_end` over the clips, `0` for an empty track. -/
def Track.duration (t : Track) : Int :=
  ((t.clips.map (fun clip => clip.timeline_end)).max?).getD 0

/-- `Timeline` (`src/core/timeline.rs` lines 9-14). -/
structure Timeline where
  video_track : Track
  audio_track : Track
  duration : Int
  playhead : Int
deriving DecidableEq

/-- `Timeline::new` (`src/core/timeline.rs` lines 18-28). -/
def Timeline.new : Timeline :=
  { video_track := Track.new 1 TrackType.Video,
    audio_track := Track.new 2 TrackType.Audio,
    duration := 0, playhead := 0 }

/-- `Timeline::update_duration` (`src/core/timeline.rs` lines 65-70). -/
def Timeline.update_duration (tl : Timeline) : Timeline :=
  { tl with duration := max tl.video_track.duration tl.audio_track.duration }

/-- `Timeline::add_video_clip` (`src/core/timeline.rs` lines 32-36): on track
error the `?` returns early, before `update_duration`. -/
def Timeline.add_video_clip (tl : Timeline) (clip : Clip) : Timeline × Option TrackError :=
  match tl.video_track.add_clip clip with
  | (vt, none) => (Timeline.update_duration { tl with video_track := vt }, none)
  | (_, some e) => (tl, some e)

/-- `Timeline::add_audio_clip` (`src/core/timeline.rs` lines 40-44). -/
def Timeline.add_audio_clip (tl : Timeline) (clip : Clip) : Timeline × Option TrackError :=
  match tl.audio_track.add_clip clip with
  | (at_, none) => (Timeline.update_duration { tl with audio_track := at_ }, none)
  | (_, some e) => (tl, some e)

/-- `Timeline::remove_video_clip` (`src/core/timeline.rs` lines 47-53):
recomputes the duration when a clip was removed; the playhead is NOT
re-clamped. -/
def Timeline.remove_video_clip (tl : Timeline) (clip_id : Nat) : Timeline × Option Clip :=
  match tl.video_track.remove_clip clip_id with
  | (vt, some c) => (Timeline.update_duration { tl with video_track := vt }, some c)
  | (_, none) => (tl, none)

/-- `Timeline::remove_audio_clip` (`src/core/timeline.rs` lines 56-62). -/
def Timeline.remove_audio_clip (tl : Timeline) (clip_id : Nat) : Timeline × Option Clip :=
  match tl.audio_track.remove_clip clip_id with
  | (at_, some c) => (Timeline.update_duration { tl with audio_track := at_ }, some c)
  | (_, none) => (tl, none)

/-- `Timeline::set_playhead` (`src/core/timeline.rs` lines 73-76):
`position.max(0).min(self.duration)`. -/
def Timeline.set_playhead (tl : Timeline) (position : Int) : Timeline :=
  { tl with playhead := min (max position 0) tl.duration }

/-- The master-clock state of `AudioPlayer` (`src/audio/player.rs`): the
`master_clock: Arc<AtomicI64>` cell plus the `timeline_start_position`
bookkeeping field.  The cpal stream, device and mixer fields play no part in
the clock arithmetic. -/
structure AudioPlayerClock where
  master_clock : Int
  timeline_start_position : Int
deriving DecidableEq

/-- Clock effect of `AudioPlayer::play` (`src/audio/player.rs` lines
125-166): stores the starting timeline position into the master clock. -/
def AudioPlayerClock.play (s : AudioPlayerClock) (timeline_position : Int) :
    AudioPlayerClock :=
  { s with timeline_start_position := timeline_position,
           master_clock := timeline_position }

/-- The audio callback body (`src/audio/player.rs` lines 140-157): after
committing `duration_nanos` worth of samples to the hardware buffer it loads
the clock and stores `current_time + duration_nanos`, i.e. it advances the
clock by the committed duration. -/
def AudioPlayerClock.advance (s : AudioPlayerClock) (duration_nanos : Int) :
    AudioPlayerClock :=
  { s with master_clock := s.master_clock + duration_nanos }

/-- Clock effect of `AudioPlayer::seek` (`src/audio/player.rs` lines
211-218): stores the target position into the master clock. -/
def AudioPlayerClock.seek (s : AudioPlayerClock) (position : Int) :
    AudioPlayerClock :=
  { s with timeline_start_position := position, master_clock := position }

/-- `AudioPlayer::current_timeline_position` (`src/audio/player.rs` lines
201-203): an atomic load of the master clock. -/
def AudioPlayerClock.current_timeline_position (s : AudioPlayerClock) : Int :=
  s.master_clock

/-- Unfolding lemma for the Boolean `Clip.contains`. -/
theorem Clip.contains_iff (c : Clip) (t : Int) :
    c.contains t = true ↔ c.timeline_start ≤ t ∧ t ≤ c.timeline_end := by
  simp [Clip.contains, ge_iff_le, and_comm]

/-- Unfolding lemma for the Boolean `Clip.overlaps_with`. -/
theorem Clip.overlaps_with_iff (c other : Clip) :
    c.overlaps_with other = true ↔
      ¬(c.timeline_end ≤ other.timeline_start ∨
        other.timeline_end ≤ c.timeline_start) := by
  simp [Clip.overlaps_with]

/-- Claim C1: for the master clock, after `start(P)` followed by
`advance(d1)` and `advance(d2)` (the audio callback committing `d1` then
`d2` nanoseconds of samples), `current_timeline_position()` returns exactly
`P + d1 + d2`; and after a subsequent `seek(Q)` the next read is exactly
`Q`, regardless of the value accumulated before the seek, for every
position `P`, `Q` and every pair of deltas `d1`, `d2`. -/
theorem master_clock_advance_and_seek (s : AudioPlayerClock) (P Q d1 d2 : Int) :
    (((s.play P).advance d1).advance d2).current_timeline_position = P + d1 + d2 ∧
    ((((s.play P).advance d1).advance d2).seek Q).current_timeline_position = Q := by
  constructor <;>
    simp [AudioPlayerClock.play, AudioPlayerClock.advance, AudioPlayerClock.seek,
      AudioPlayerClock.current_timeline_position]

/-- Claim C8: for every clip satisfying the clip invariant
(`out_point > in_point` and
`timeline_end = timeline_start + (out_point - in_point)`), the two time
mappings are mutually inverse on `[in_point, out_point]` and
`[timeline_start, timeline_end]` respectively, and each returns `none`
outside its interval. -/
theorem clip_time_mappings_mutually_inverse (c : Clip)
    (hio : c.in_point < c.out_point)
    (hte : c.timeline_end = c.timeline_start + (c.out_point - c.in_point)) :
    (∀ s : Int, c.in_point ≤ s → s ≤ c.out_point →
      ∃ t, c.source_to_timeline s = some t ∧ c.timeline_to_source t = some s) ∧
    (∀ t : Int, c.timeline_start ≤ t → t ≤ c.timeline_end →
      ∃ s, c.timeline_to_source t = some s ∧ c.source_to_timeline s = some t) ∧
    (∀ t : Int, t < c.timeline_start ∨ c.timeline_end < t →
      c.timeline_to_source t = none) ∧
    (∀ s : Int, s < c.in_point ∨ c.out_point < s →
      c.source_to_timeline s = none) := by
  refine ⟨?_, ?_, ?_, ?_⟩
  · intro s hs1 hs2
    refine ⟨c.timeline_start + (s - c.in_point), ?_, ?_⟩
    · rw [Clip.source_to_timeline, if_neg (by omega)]
    · rw [Clip.timeline_to_source,
        if_pos (by rw [Clip.contains_iff]; omega)]
      simp
  · intro t ht1 ht2
    refine ⟨c.in_point + (t - c.timeline_start), ?_, ?_⟩
    · rw [Clip.timeline_to_source,
        if_pos (by rw [Clip.contains_iff]; omega)]
    · rw [Clip.source_to_timeline, if_neg (by omega)]
      simp
  · intro t ht
    rw [Clip.timeline_to_source, if_neg]
    rw [Clip.contains_iff]
    omega
  · intro s hs
    rw [Clip.source_to_timeline, if_pos (by omega)]

/-- Witness for C8: the clip with source range `[5, 10]`, timeline range
`[2, 7]` maps source position `6` to timeline position `3` and back. -/
theorem clip_time_mappings_mutually_inverse_witness :
    ∃ t, (Clip.new 1 "a.mp4" 5 10 2 0).source_to_timeline 6 = some t ∧
      (Clip.new 1 "a.mp4" 5 10 2 0).timeline_to_source t = some 6 :=
  (clip_time_mappings_mutually_inverse (Clip.new 1 "a.mp4" 5 10 2 0)
    (by decide) (by decide)).1 6 (by decide) (by decide)

/-- Claim C9: `Track::add_clip` is atomic — whenever it rejects an insertion
with an error, the clip list after the call is identical to the clip list
before the call (in fact the whole track is unchanged). -/
theorem add_clip_atomic_on_rejection (t : Track) (c : Clip) (e : TrackError)
    (h : (t.add_clip c).2 = some e) :
    (t.add_clip c).1 = t := by
  unfold Track.add_clip at *
  cases hf : t.clips.find? (fun existing => c.overlaps_with existing) with
  | some x => simp [hf]
  | none => simp [hf] at h

/-- Witness for C9: inserting a clip with timeline range `[5, 15]` into a
track already holding `[0, 10]` is rejected and leaves the track intact. -/
theorem add_clip_atomic_on_rejection_witness :
    (Track.add_clip ⟨1, TrackType.Video, [Clip.new 1 "a" 0 10 0 0], false⟩
        (Clip.new 2 "b" 0 10 5 0)).1 =
      ⟨1, TrackType.Video, [Clip.new 1 "a" 0 10 0 0], false⟩ :=
  add_clip_atomic_on_rejection _ _ (TrackError.Overlap 2) rfl

/-- Claim C10: clip membership is tested over the closed interval
`[timeline_start, timeline_end]`, so for a track holding two adjacent clips
`a`, `b` with `a.timeline_end = b.timeline_start` the shared boundary
instant is contained in both clips, and `clip_at` at that instant returns
`a`, the clip with the earlier `timeline_start` (clips are scanned in list
order, which `add_clip` keeps sorted by `timeline_start`). -/
theorem contains_closed_boundary_clip_at :
    (∀ (c : Clip) (u : Int),
      c.contains u = true ↔ c.timeline_start ≤ u ∧ u ≤ c.timeline_end) ∧
    (∀ (tr : Track) (a b : Clip), tr.clips = [a, b] →
      a.timeline_start ≤ a.timeline_end → b.timeline_start ≤ b.timeline_end →
      a.timeline_end = b.timeline_start →
      a.contains a.timeline_end = true ∧ b.contains a.timeline_end = true ∧
      tr.clip_at a.timeline_end = some a) := by
  refine ⟨fun c u => Clip.contains_iff c u, ?_⟩
  intro tr a b hclips ha hb hadj
  have hca : a.contains a.timeline_end = true := by
    rw [Clip.contains_iff]; omega
  have hcb : b.contains a.timeline_end = true := by
    rw [Clip.contains_iff]; omega
  refine ⟨hca, hcb, ?_⟩
  rw [Track.clip_at, hclips]
  simp [List.find?, hca]

/-- Witness for C10: two concrete adjacent 3-second clips sharing the
boundary instant `3000000000`; `clip_at` there returns the first clip. -/
theorem contains_closed_boundary_clip_at_witness :
    (Clip.new 1 "a" 0 3000000000 0 0).contains 3000000000 = true ∧
    (Clip.new 2 "b" 0 3000000000 3000000000 0).contains 3000000000 = true ∧
    Track.clip_at
      ⟨1, TrackType.Video,
        [Clip.new 1 "a" 0 3000000000 0 0, Clip.new 2 "b" 0 3000000000 3000000000 0],
        false⟩ 3000000000 = some (Clip.new 1 "a" 0 3000000000 0 0) :=
  contains_closed_boundary_clip_at.2
    ⟨1, TrackType.Video,
      [Clip.new 1 "a" 0 3000000000 0 0, Clip.new 2 "b" 0 3000000000 3000000000 0],
      false⟩
    (Clip.new 1 "a" 0 3000000000 0 0) (Clip.new 2 "b" 0 3000000000 3000000000 0)
    rfl (by decide) (by decide) (by decide)

/-- Counterexample for C3: on the audio track, clips at `[0s,3s)` and
`[3s,6s)` insert successfully, and the clip at `[2s,4s)` (id 3) is rejected
— but the error carries `clip_id = 3`, the id of the REJECTED clip itself,
not the id 1 of the existing clip it collided with. -/
theorem add_clip_error_id_counterexample :
    (((Track.new 2 TrackType.Audio).add_clip
        (Clip.new 1 "s1" 0 3000000000 0 0)).2 = none) ∧
    ((((Track.new 2 TrackType.Audio).add_clip
        (Clip.new 1 "s1" 0 3000000000 0 0)).1.add_clip
        (Clip.new 2 "s2" 0 3000000000 3000000000 0)).2 = none) ∧
    (((((Track.new 2 TrackType.Audio).add_clip
        (Clip.new 1 "s1" 0 3000000000 0 0)).1.add_clip
        (Clip.new 2 "s2" 0 3000000000 3000000000 0)).1.add_clip
        (Clip.new 3 "s3" 0 2000000000 2000000000 0)).2 =
      some (TrackError.Overlap 3)) ∧
    TrackError.Overlap 3 ≠ TrackError.Overlap 1 := by
  refine ⟨rfl, rfl, rfl, by decide⟩

/-- Claim C3 (amended): for every track and every clip whose timeline range
intersects the range of some clip already on the track, `add_clip` rejects
the insertion, leaving the track unchanged — but the error identifies the id
of the REJECTED (inserted) clip, not the id of the existing clip it collided
with.  In the concrete scenario, clips at `[0s,3s)` and `[3s,6s)` insert
successfully and the clip at `[2s,4s)` with id 3 is rejected with
`Overlap { clip_id: 3 }`. -/
theorem add_clip_rejects_with_new_clip_id (t : Track) (c : Clip)
    (h : ∃ e ∈ t.clips, c.overlaps_with e = true) :
    t.add_clip c = (t, some (TrackError.Overlap c.id)) := by
  have hsome : (t.clips.find? (fun existing => c.overlaps_with existing)).isSome := by
    rw [List.find?_isSome]
    exact h
  unfold Track.add_clip
  cases hf : t.clips.find? (fun existing => c.overlaps_with existing) with
  | some x => rfl
  | none => rw [hf] at hsome; simp at hsome

/-- Witness for C3: the third scenario clip is rejected with its own id. -/
theorem add_clip_rejects_with_new_clip_id_witness :
    ((((Track.new 2 TrackType.Audio).add_clip
        (Clip.new 1 "s1" 0 3000000000 0 0)).1.add_clip
        (Clip.new 2 "s2" 0 3000000000 3000000000 0)).1.add_clip
      (Clip.new 3 "s3" 0 2000000000 2000000000 0)) =
    (((((Track.new 2 TrackType.Audio).add_clip
        (Clip.new 1 "s1" 0 3000000000 0 0)).1.add_clip
        (Clip.new 2 "s2" 0 3000000000 3000000000 0)).1),
      some (TrackError.Overlap 3)) :=
  add_clip_rejects_with_new_clip_id _ _
    ⟨Clip.new 1 "s1" 0 3000000000 0 0, by decide, by decide⟩

/-- Counterexample for C5: `Clip::new` of `src/core/clip.rs` performs no
validation: the clip with `in_point = 2s`, `out_point = 1s` (so
`out_point <= in_point`) is constructed without any failure, and
`add_video_clip` accepts it into a fresh timeline — it enters the document.
(`src/timeline/clip.rs` rejects such input by an `assert!` panic, also not
by returning a failure.) -/
theorem clip_invalid_construction_counterexample :
    ((Clip.new 9 "bad" 2000000000 1000000000 0 0).out_point ≤
      (Clip.new 9 "bad" 2000000000 1000000000 0 0).in_point) ∧
    ((Timeline.new.add_video_clip
        (Clip.new 9 "bad" 2000000000 1000000000 0 0)).2 = none) ∧
    ((Timeline.new.add_video_clip
        (Clip.new 9 "bad" 2000000000 1000000000 0 0)).1.video_track.clips =
      [Clip.new 9 "bad" 2000000000 1000000000 0 0]) ∧
    TimelineClip.new 9 "bad" 2000000000 1000000000 0 0 = none := by
  refine ⟨by decide, rfl, rfl, by decide⟩

/-- Claim C5 (amended): constructing a clip with `out_point <= in_point` is
NOT rejected by `src/core/clip.rs` `Clip::new` — the clip is built with those
very bounds, no failure is reported, and a fresh document accepts it — while
`src/timeline/clip.rs` `Clip::new` rejects such input by panicking
(`assert!`), not by returning a failure to the caller; only for
`out_point > in_point` does the checked constructor return a clip. -/
theorem clip_construction_validation (id : Nat) (p : String)
    (inp outp ts : Int) (si : Nat) (hbad : outp ≤ inp) :
    ((Clip.new id p inp outp ts si).out_point ≤
      (Clip.new id p inp outp ts si).in_point) ∧
    ((Timeline.new.add_video_clip (Clip.new id p inp outp ts si)).2 = none) ∧
    TimelineClip.new id p inp outp ts si = none ∧
    (∀ (inp2 outp2 : Int), inp2 < outp2 →
      TimelineClip.new id p inp2 outp2 ts si =
        some (Clip.new id p inp2 outp2 ts si)) := by
  refine ⟨hbad, rfl, ?_, ?_⟩
  · rw [TimelineClip.new, if_neg (by omega)]
  · intro inp2 outp2 hlt
    rw [TimelineClip.new, if_pos hlt]

/-- Witness for C5: the amended statement applied to the invalid input
`in_point = 2s`, `out_point = 1s`. -/
theorem clip_construction_validation_witness :
    ((Clip.new 9 "bad" 2000000000 1000000000 0 0).out_point ≤
      (Clip.new 9 "bad" 2000000000 1000000000 0 0).in_point) ∧
    ((Timeline.new.add_video_clip
        (Clip.new 9 "bad" 2000000000 1000000000 0 0)).2 = none) ∧
    TimelineClip.new 9 "bad" 2000000000 1000000000 0 0 = none ∧
    (∀ (inp2 outp2 : Int), inp2 < outp2 →
      TimelineClip.new 9 "bad" inp2 outp2 0 0 =
        some (Clip.new 9 "bad" inp2 outp2 0 0)) :=
  clip_construction_validation 9 "bad" 2000000000 1000000000 0 0 (by decide)

/-- Auxiliary: a fold of `max` dominates its starting accumulator. -/
theorem foldl_max_le_self (as : List Int) (a : Int) : a ≤ as.foldl max a := by
  induction as generalizing a with
  | nil => exact le_refl a
  | cons b bs ih =>
    calc a ≤ max a b := le_max_left a b
    _ ≤ bs.foldl max (max a b) := ih (max a b)

/-- Auxiliary: a fold of `max` dominates every list element. -/
theorem foldl_max_le_of_mem (as : List Int) (a x : Int) (hx : x ∈ as) :
    x ≤ as.foldl max a := by
  induction as generalizing a with
  | nil => cases hx
  | cons b bs ih =>
    rcases List.mem_cons.mp hx with h | h
    · subst h
      calc x ≤ max a x := le_max_right a x
      _ ≤ bs.foldl max (max a x) := foldl_max_le_self bs (max a x)
    · exact ih (max a b) h

/-- Auxiliary: a fold of `max` is the accumulator or one of the elements. -/
theorem foldl_max_cases (as : List Int) (a : Int) :
    as.foldl max a = a ∨ as.foldl max a ∈ as := by
  induction as generalizing a with
  | nil => exact Or.inl rfl
  | cons b bs ih =>
    rcases ih (max a b) with h | h
    · rcases max_cases a b with ⟨he, _⟩ | ⟨he, _⟩
      · exact Or.inl (by rw [List.foldl_cons, h, he])
      · exact Or.inr (by rw [List.foldl_cons, h, he]; exact List.mem_cons_self b bs)
    · exact Or.inr (List.mem_cons_of_mem b h)

/-- Every clip end is at most the duration of its track. -/
theorem Track.le_duration_of_mem (t : Track) (c : Clip) (hc : c ∈ t.clips) :
    c.timeline_end ≤ t.duration := by
  unfold Track.duration
  cases hcl : t.clips with
  | nil => rw [hcl] at hc; cases hc
  | cons d ds =>
    rw [hcl] at hc
    rcases List.mem_cons.mp hc with h | h
    · subst h
      simpa [List.max?] using
        foldl_max_le_self (ds.map (fun x => x.timeline_end)) c.timeline_end
    · simpa [List.max?] using
        foldl_max_le_of_mem (ds.map (fun x => x.timeline_end)) d.timeline_end
          c.timeline_end (List.mem_map_of_mem (fun x => x.timeline_end) h)

/-- The duration of a track is zero or an actual clip end. -/
theorem Track.duration_cases (t : Track) :
    t.duration = 0 ∨ ∃ c ∈ t.clips, t.duration = c.timeline_end := by
  unfold Track.duration
  cases hcl : t.clips with
  | nil => exact Or.inl rfl
  | cons d ds =>
    right
    rcases foldl_max_cases (ds.map (fun x => x.timeline_end)) d.timeline_end with h | h
    · exact ⟨d, List.mem_cons_self d ds, by simp [List.max?, h]⟩
    · rcases List.mem_map.mp h with ⟨c, hc, he⟩
      exact ⟨c, List.mem_cons_of_mem d hc, by simp [List.max?, he.symm]⟩

/-- Successful `add_clip` never shrinks a track duration, provided the new
clip ends at a nonnegative time. -/
theorem Track.duration_mono_add_clip (t : Track) (c : Clip)
    (hc : 0 ≤ c.timeline_end) (t2 : Track) (h : t.add_clip c = (t2, none)) :
    t.duration ≤ t2.duration := by
  have hclips : t2.clips = List.insertionSort
      (fun a b => a.timeline_start ≤ b.timeline_start) (t.clips ++ [c]) := by
    unfold Track.add_clip at h
    cases hf : t.clips.find? (fun existing => c.overlaps_with existing) with
    | some x => rw [hf] at h; cases h
    | none =>
      rw [hf] at h
      have := congrArg Prod.fst h
      simp at this
      rw [← this]
  have hcmem : c ∈ t2.clips := by
    rw [hclips, List.mem_insertionSort]
    exact List.mem_append_right _ (List.mem_singleton.mpr rfl)
  rcases Track.duration_cases t with h0 | ⟨d, hd, he⟩
  · rw [h0]
    exact le_trans hc (Track.le_duration_of_mem t2 c hcmem)
  · rw [he]
    have hdm : d ∈ t2.clips := by
      rw [hclips, List.mem_insertionSort]
      exact List.mem_append_left _ hd
    exact Track.le_duration_of_mem t2 d hdm

/-- Counterexample for C4: a 2-second clip is added, the playhead is set to
the 2-second mark (legal: it equals the duration), then the clip is removed.
The duration is recomputed to `0` but the playhead is left at `2s`, i.e.
outside `[0, duration]` — clip removal does not re-clamp the playhead. -/
theorem playhead_invariant_removal_counterexample :
    ((((Timeline.new.add_video_clip (Clip.new 1 "v" 0 2000000000 0 0)).1.set_playhead
        2000000000).remove_video_clip 1).1.playhead = 2000000000) ∧
    ((((Timeline.new.add_video_clip (Clip.new 1 "v" 0 2000000000 0 0)).1.set_playhead
        2000000000).remove_video_clip 1).1.duration = 0) ∧
    ¬((((Timeline.new.add_video_clip (Clip.new 1 "v" 0 2000000000 0 0)).1.set_playhead
        2000000000).remove_video_clip 1).1.playhead ≤
      (((Timeline.new.add_video_clip (Clip.new 1 "v" 0 2000000000 0 0)).1.set_playhead
        2000000000).remove_video_clip 1).1.duration) := by
  refine ⟨rfl, rfl, by decide⟩

/-- Claim C4 (amended): `set_playhead` clamps every input — including
negative or huge values — into `[0, duration]` (whenever the duration is
nonnegative, which holds for every document whose clips end at nonnegative
times), and every successful clip INSERTION preserves
`playhead ∈ [0, duration]` for the recomputed duration; clip REMOVAL,
however, recomputes the duration without re-clamping the playhead, so the
invariant is not preserved by `remove_video_clip` / `remove_audio_clip`. -/
theorem playhead_invariant_amended :
    (∀ (tl : Timeline) (pos : Int), 0 ≤ tl.duration →
      0 ≤ (tl.set_playhead pos).playhead ∧
      (tl.set_playhead pos).playhead ≤ (tl.set_playhead pos).duration) ∧
    (∀ (tl : Timeline) (c : Clip),
      tl.duration = max tl.video_track.duration tl.audio_track.duration →
      0 ≤ tl.playhead → tl.playhead ≤ tl.duration → 0 ≤ c.timeline_end →
      0 ≤ (tl.add_video_clip c).1.playhead ∧
      (tl.add_video_clip c).1.playhead ≤ (tl.add_video_clip c).1.duration) ∧
    (∀ (tl : Timeline) (c : Clip),
      tl.duration = max tl.video_track.duration tl.audio_track.duration →
      0 ≤ tl.playhead → tl.playhead ≤ tl.duration → 0 ≤ c.timeline_end →
      0 ≤ (tl.add_audio_clip c).1.playhead ∧
      (tl.add_audio_clip c).1.playhead ≤ (tl.add_audio_clip c).1.duration) := by
  refine ⟨?_, ?_, ?_⟩
  · intro tl pos hdur
    unfold Timeline.set_playhead
    constructor
    · simp
      omega
    · simp
  · intro tl c hcons hph0 hph1 hc
    cases hadd : tl.video_track.add_clip c with
    | mk vt r =>
      cases r with
      | some e =>
        simp [Timeline.add_video_clip, hadd]
        omega
      | none =>
        have hmono : tl.video_track.duration ≤ vt.duration :=
          Track.duration_mono_add_clip tl.video_track c hc vt hadd
        simp [Timeline.add_video_clip, hadd, Timeline.update_duration]
        refine ⟨hph0, ?_⟩
        have hle : tl.playhead ≤
            max tl.video_track.duration tl.audio_track.duration := hcons ▸ hph1
        omega
  · intro tl c hcons hph0 hph1 hc
    cases hadd : tl.audio_track.add_clip c with
    | mk at_ r =>
      cases r with
      | some e =>
        simp [Timeline.add_audio_clip, hadd]
        omega
      | none =>
        have hmono : tl.audio_track.duration ≤ at_.duration :=
          Track.duration_mono_add_clip tl.audio_track c hc at_ hadd
        simp [Timeline.add_audio_clip, hadd, Timeline.update_duration]
        refine ⟨hph0, ?_⟩
        have hle : tl.playhead ≤
            max tl.video_track.duration tl.audio_track.duration := hcons ▸ hph1
        omega

/-- Witness for C4 (amended): clamping a negative input on a fresh timeline,
and inserting a 2-second clip into a fresh timeline, both leave the playhead
inside `[0, duration]`. -/
theorem playhead_invariant_amended_witness :
    (0 ≤ (Timeline.new.set_playhead (-5000000000)).playhead ∧
      (Timeline.new.set_playhead (-5000000000)).playhead ≤
        (Timeline.new.set_playhead (-5000000000)).duration) ∧
    (0 ≤ (Timeline.new.add_video_clip (Clip.new 1 "v" 0 2000000000 0 0)).1.playhead ∧
      (Timeline.new.add_video_clip (Clip.new 1 "v" 0 2000000000 0 0)).1.playhead ≤
        (Timeline.new.add_video_clip (Clip.new 1 "v" 0 2000000000 0 0)).1.duration) :=
  ⟨playhead_invariant_amended.1 Timeline.new (-5000000000) (by decide),
    playhead_invariant_amended.2.1 Timeline.new (Clip.new 1 "v" 0 2000000000 0 0)
      (by decide) (by decide) (by decide) (by decide)⟩

/-- `VideoFrame` (`src/decode/decoder.rs`): pixel bytes, dimensions and a
nanosecond timestamp. -/
structure VideoFrame where
  data : List Nat
  width : Nat
  height : Nat
  timestamp : Int
deriving DecidableEq

/-- `CacheKey` (`src/decode/frame_cache.rs` lines 11-14). -/
structure CacheKey where
  source_path : String
  timestamp : Int
deriving DecidableEq

/-- `FrameCache` (`src/decode/frame_cache.rs` lines 18-22).  The Rust
`HashMap<CacheKey, VideoFrame>` is modelled as an association list with
pairwise-distinct keys.  The list position records insertion order (so that
"oldest by insertion" is expressible), but the hash map itself is unordered:
wherever the code iterates over the map, the iteration order — which Rust's
`HashMap` (randomly seeded) leaves completely unspecified — is passed in
explicitly as a parameter. -/
structure FrameCache where
  cache : List (CacheKey × VideoFrame)
  cache_window_size : Int
  max_cache_size : Nat
deriving DecidableEq

/-- Removal of a list of keys from the map, one `HashMap::remove` per key
(the loop body of `evict_oldest`). -/
def removeKeys (m : List (CacheKey × VideoFrame)) (keys : List CacheKey) :
    List (CacheKey × VideoFrame) :=
  keys.foldl (fun acc k => acc.eraseP (fun kv => kv.1 == k)) m

/-- `FrameCache::evict_oldest` (`src/decode/frame_cache.rs` lines 69-76):
collects the first `len/4` keys yielded by the map's iterator
(`self.cache.keys().take(to_remove)`) and removes them.  `iter_order` is the
(unspecified) hash-map iteration order at that moment. -/
def FrameCache.evict_oldest (fc : FrameCache) (iter_order : List CacheKey) :
    FrameCache :=
  let to_remove := fc.cache.length / 4
  let keys := iter_order.take to_remove
  { fc with cache := removeKeys fc.cache keys }

/-- `HashMap::insert`: overwrite the entry with an equal key, else add. -/
def assocPut (m : List (CacheKey × VideoFrame)) (k : CacheKey) (v : VideoFrame) :
    List (CacheKey × VideoFrame) :=
  if m.any (fun kv => kv.1 == k) then
    m.map (fun kv => if kv.1 == k then (k, v) else kv)
  else
    m ++ [(k, v)]

/-- `FrameCache::insert` (`src/decode/frame_cache.rs` lines 52-65): builds
the key from the source path and the frame's own timestamp, bulk-evicts
first when the map holds at least `max_cache_size` entries, then inserts. -/
def FrameCache.insert (fc : FrameCache) (source_path : String)
    (frame : VideoFrame) (iter_order : List CacheKey) : FrameCache :=
  let key : CacheKey := ⟨source_path, frame.timestamp⟩
  let fc2 := if fc.cache.length ≥ fc.max_cache_size
    then fc.evict_oldest iter_order else fc
  { fc2 with cache := assocPut fc2.cache key frame }

/-- Removing keys only ever shortens the map (it is a sublist). -/
theorem removeKeys_sublist (keys : List CacheKey)
    (m : List (CacheKey × VideoFrame)) :
    (removeKeys m keys).Sublist m := by
  induction keys generalizing m with
  | nil => exact List.Sublist.refl m
  | cons k ks ih =>
    exact (ih (m.eraseP (fun kv => kv.1 == k))).trans (List.eraseP_sublist m)

/-- Removing distinct, present keys removes exactly one entry per key. -/
theorem removeKeys_length (keys : List CacheKey)
    (m : List (CacheKey × VideoFrame)) (hk : keys.Nodup)
    (hmem : ∀ k ∈ keys, k ∈ m.map Prod.fst) :
    (removeKeys m keys).length = m.length - keys.length := by
  induction keys generalizing m with
  | nil => rfl
  | cons k ks ih =>
    have hkm : k ∈ m.map Prod.fst := hmem k (List.mem_cons_self k ks)
    rcases List.mem_map.mp hkm with ⟨kv, hkv, hfst⟩
    have hpred : (fun kv : CacheKey × VideoFrame => kv.1 == k) kv = true := by
      simp [hfst]
    rcases @List.exists_of_eraseP (CacheKey × VideoFrame) (fun kv => kv.1 == k)
        m kv hkv hpred with ⟨a, l1, l2, hl1, hpa, hm, hrw⟩
    have hlen1 : (m.eraseP (fun kv => kv.1 == k)).length = m.length - 1 :=
      List.length_eraseP_of_mem hkv hpred
    have hmem2 : ∀ x ∈ ks, x ∈ (m.eraseP (fun kv => kv.1 == k)).map Prod.fst := by
      intro x hx
      have hxm : x ∈ m.map Prod.fst := hmem x (List.mem_cons_of_mem k hx)
      have hxk : x ≠ k := by
        intro he
        subst he
        exact (List.nodup_cons.mp hk).1 hx
      rcases List.mem_map.mp hxm with ⟨kv2, hkv2, hfst2⟩
      rw [hm] at hkv2
      have hpa2 : a.1 = k := by simpa using hpa
      have hkv2ne : kv2 ≠ a := by
        intro he
        exact hxk (by rw [← hfst2, he, hpa2])
      have : kv2 ∈ l1 ++ l2 := by
        rcases List.mem_append.mp hkv2 with h | h
        · exact List.mem_append_left _ h
        · rcases List.mem_cons.mp h with h | h
          · exact absurd h hkv2ne
          · exact List.mem_append_right _ h
      rw [hrw]
      exact List.mem_map.mpr ⟨kv2, this, hfst2⟩
    have hrec := ih (m.eraseP (fun kv => kv.1 == k)) (List.nodup_cons.mp hk).2 hmem2
    have hpos : 1 ≤ m.length := by
      have := List.length_pos.mpr (List.ne_nil_of_mem hkv)
      omega
    have hstep : removeKeys m (k :: ks)
        = removeKeys (m.eraseP (fun kv => kv.1 == k)) ks := rfl
    rw [hstep, hrec, hlen1, List.length_cons]
    omega

/-- Inserting a key not already present appends one entry. -/
theorem assocPut_length_fresh (m : List (CacheKey × VideoFrame))
    (k : CacheKey) (v : VideoFrame) (h : k ∉ m.map Prod.fst) :
    (assocPut m k v).length = m.length + 1 := by
  have hany : m.any (fun kv => kv.1 == k) = false := by
    rw [List.any_eq_false]
    intro kv hkv
    simp only [beq_iff_eq]
    intro he
    exact h (List.mem_map.mpr ⟨kv, hkv, he⟩)
  rw [assocPut, hany]
  simp

/-- Counterexample for C6, in two parts.
Part 1 (capacity bound): a cache with maximum capacity `N = 1` holding one
entry accepts a second distinct entry without evicting anything, because the
bulk eviction count is `len/4 = 1/4 = 0`; afterwards it holds `2 > N`
entries.  So inserting `N+1` entries into a capacity-`N` cache does NOT leave
at most `N` entries in general.
Part 2 (eviction order): `evict_oldest` takes `len/4` keys in hash-map
iteration order, which is unspecified; with the iteration order that lists
the keys newest-first (a legal order for Rust's randomly-seeded `HashMap`),
a full capacity-4 cache holding keys with timestamps `0,1,2,3` (inserted in
that order) evicts the MOST RECENT key `3` and keeps the oldest key `0`, so
the evicted entries are not the oldest-by-insertion ones. -/
theorem frame_cache_counterexample :
    ((((FrameCache.mk [] 1000000000 1).insert "s" (VideoFrame.mk [] 0 0 0) []).insert
        "s" (VideoFrame.mk [] 0 0 1) [CacheKey.mk "s" 0]).cache.length = 2) ∧
    (((FrameCache.mk
          [(CacheKey.mk "s" 0, VideoFrame.mk [] 0 0 0),
           (CacheKey.mk "s" 1, VideoFrame.mk [] 0 0 1),
           (CacheKey.mk "s" 2, VideoFrame.mk [] 0 0 2),
           (CacheKey.mk "s" 3, VideoFrame.mk [] 0 0 3)] 1000000000 4).insert
        "s" (VideoFrame.mk [] 0 0 4)
        [CacheKey.mk "s" 3, CacheKey.mk "s" 2, CacheKey.mk "s" 1,
          CacheKey.mk "s" 0]).cache.map Prod.fst =
      [CacheKey.mk "s" 0, CacheKey.mk "s" 1, CacheKey.mk "s" 2,
        CacheKey.mk "s" 4]) := by
  refine ⟨rfl, rfl⟩

/-- Claim C6 (amended): when an insertion finds the cache holding
`N = max_cache_size` entries, it first evicts exactly `N/4` entries — the
first `N/4` keys of the (unspecified) hash-map iteration order, not
necessarily the oldest by insertion — and then inserts, so for `N ≥ 4` and a
fresh key the cache afterwards holds `N - N/4 + 1 ≤ N` entries (for
`N ≤ 3` the eviction count `N/4` is zero and the cache grows beyond `N`). -/
theorem frame_cache_capacity_amended (fc : FrameCache) (p : String)
    (f : VideoFrame) (σ : List CacheKey)
    (hnodup : (fc.cache.map Prod.fst).Nodup)
    (hfull : fc.cache.length = fc.max_cache_size)
    (hN : 4 ≤ fc.max_cache_size)
    (hσn : σ.Nodup)
    (hσm : ∀ k ∈ σ, k ∈ fc.cache.map Prod.fst)
    (hσl : fc.max_cache_size / 4 ≤ σ.length)
    (hfresh : (CacheKey.mk p f.timestamp) ∉ fc.cache.map Prod.fst) :
    (fc.insert p f σ).cache.length
        = fc.max_cache_size - fc.max_cache_size / 4 + 1 ∧
    (fc.insert p f σ).cache.length ≤ fc.max_cache_size := by
  have hkeys : (σ.take (fc.cache.length / 4)).Nodup :=
    hσn.sublist (List.take_sublist _ _)
  have hkeysm : ∀ k ∈ σ.take (fc.cache.length / 4), k ∈ fc.cache.map Prod.fst :=
    fun k hk => hσm k (List.take_subset _ _ hk)
  have hkeysl : (σ.take (fc.cache.length / 4)).length = fc.cache.length / 4 := by
    rw [List.length_take]
    omega
  have hevlen : (removeKeys fc.cache (σ.take (fc.cache.length / 4))).length
      = fc.cache.length - fc.cache.length / 4 := by
    rw [removeKeys_length _ _ hkeys hkeysm, hkeysl]
  have hevfresh : (CacheKey.mk p f.timestamp)
      ∉ (removeKeys fc.cache (σ.take (fc.cache.length / 4))).map Prod.fst := by
    intro hmem
    exact hfresh (((removeKeys_sublist _ _).map Prod.fst).subset hmem)
  have hcond : fc.cache.length ≥ fc.max_cache_size := le_of_eq hfull.symm
  have hres : (fc.insert p f σ).cache
      = assocPut (removeKeys fc.cache (σ.take (fc.cache.length / 4)))
          (CacheKey.mk p f.timestamp) f := by
    rw [FrameCache.insert]
    simp only [if_pos hcond]
    rfl
  rw [hres, assocPut_length_fresh _ _ _ hevfresh, hevlen, hfull]
  constructor
  · rfl
  · omega

/-- Witness for C6 (amended): a full capacity-4 cache accepts a fresh entry,
evicting exactly one (`4/4`) entry, and ends at `4 ≤ 4` entries. -/
theorem frame_cache_capacity_amended_witness :
    ((FrameCache.mk
        [(CacheKey.mk "s" 0, VideoFrame.mk [] 0 0 0),
         (CacheKey.mk "s" 1, VideoFrame.mk [] 0 0 1),
         (CacheKey.mk "s" 2, VideoFrame.mk [] 0 0 2),
         (CacheKey.mk "s" 3, VideoFrame.mk [] 0 0 3)] 1000000000 4).insert
      "s" (VideoFrame.mk [] 0 0 4)
      [CacheKey.mk "s" 0, CacheKey.mk "s" 1, CacheKey.mk "s" 2,
        CacheKey.mk "s" 3]).cache.length = 4 - 4 / 4 + 1 ∧
    ((FrameCache.mk
        [(CacheKey.mk "s" 0, VideoFrame.mk [] 0 0 0),
         (CacheKey.mk "s" 1, VideoFrame.mk [] 0 0 1),
         (CacheKey.mk "s" 2, VideoFrame.mk [] 0 0 2),
         (CacheKey.mk "s" 3, VideoFrame.mk [] 0 0 3)] 1000000000 4).insert
      "s" (VideoFrame.mk [] 0 0 4)
      [CacheKey.mk "s" 0, CacheKey.mk "s" 1, CacheKey.mk "s" 2,
        CacheKey.mk "s" 3]).cache.length ≤ 4 :=
  frame_cache_capacity_amended
    (FrameCache.mk
      [(CacheKey.mk "s" 0, VideoFrame.mk [] 0 0 0),
       (CacheKey.mk "s" 1, VideoFrame.mk [] 0 0 1),
       (CacheKey.mk "s" 2, VideoFrame.mk [] 0 0 2),
       (CacheKey.mk "s" 3, VideoFrame.mk [] 0 0 3)] 1000000000 4)
    "s" (VideoFrame.mk [] 0 0 4)
    [CacheKey.mk "s" 0, CacheKey.mk "s" 1, CacheKey.mk "s" 2, CacheKey.mk "s" 3]
    (by decide) rfl (by decide) (by decide) (by decide) (by decide) (by decide)

/-- `ExportError` (`src/export/pipeline.rs` lines 11-18).  The `Encode`
payload (an FFmpeg error) is opaque to the loop logic and dropped; the
`Decode` variant arises only during decoder setup, which the loop model
below takes as already completed. -/
inductive ExportError where
  | Encode
  | Timeline (msg : String)
deriving DecidableEq

/-- `from_seconds(1.0 / 30.0)` (`src/core/time.rs` line 22, called from
`src/export/exporter.rs` line 90) for the claims' `fps = 30`: the IEEE-754
double `1.0/30.0` is `0.0333333333333333328707…`; multiplying by `1e9` in
double precision and truncating toward zero (`as i64`) yields `33333333`,
which equals `⌊10^9 / 30⌋` — the accumulated rounding error (below `10^-1`)
cannot move the product across an integer boundary. -/
def frame_duration_ns_30fps : Int := 1000000000 / 30

/-- `samples_per_frame = (sample_rate as f64 * frame_duration_seconds) as
usize` (`src/export/exporter.rs` line 93) for the default
`sample_rate = 48000` (`src/export/pipeline.rs` line 40) and `fps = 30`:
the double product is exactly `1600.0`, so this is `48000 / 30 = 1600`. -/
def samples_per_frame_30fps : Nat := 48000 / 30

/-- Outcome of the video half of one export-loop iteration. -/
inductive VideoOutcome where
  | decoded
  | black
  | missingDecoder
deriving DecidableEq

/-- The video half of one export-loop iteration (`src/export/exporter.rs`
lines 123-157): find the video clip at the current time; map to source time
via `timeline_to_source`; look up the decoder for the clip's source path
(fatal `ExportError::Timeline` if absent); decode (black fallback frame on
failure).  No clip, or no mapping, also falls back to a black frame.
`decoders` is the key set of the decoder table built during setup;
`decode_ok path s` abstracts whether `decode_video_frame_at(s)` succeeds on
the decoder for `path`. -/
def video_step (video_track : Track) (decoders : List String)
    (decode_ok : String → Int → Bool) (timeline_time_ns : Int) : VideoOutcome :=
  match video_track.clip_at timeline_time_ns with
  | none => VideoOutcome.black
  | some clip =>
    match clip.timeline_to_source timeline_time_ns with
    | none => VideoOutcome.black
    | some source_time_ns =>
      if decoders.contains clip.source_path then
        if decode_ok clip.source_path source_time_ns then VideoOutcome.decoded
        else VideoOutcome.black
      else VideoOutcome.missingDecoder

/-- The audio half of one export-loop iteration (`src/export/exporter.rs`
lines 159-221), as the number of samples pushed into the accumulator for
the frame range `[t, fe]`: when no audio clip intersects the range, exactly
`samples_per_frame` samples of silence; otherwise the samples decoded from
each intersecting clip's overlap, abstracted by `clip_samples` (a clip
whose decode fails, or whose overlap or mapping is degenerate, contributes
`0` — the code only logs those). -/
def audio_step_samples (audio_track : Track) (samples_per_frame : Nat)
    (clip_samples : Clip → Int → Int → Nat) (t fe : Int) : Nat :=
  let clips := audio_track.clips_in_range t fe
  if clips.isEmpty then samples_per_frame
  else (clips.map (fun c =>
    clip_samples c (max c.timeline_start t) (min c.timeline_end fe))).sum

/-- The export loop of `Exporter::export` (`src/export/exporter.rs` lines
117-244): starting at timeline time `0`, while `timeline_time < duration`,
each iteration (1) encodes exactly one video frame — decoded or black —
aborting with `ExportError::Timeline` if the clip's source path has no
decoder and with an encode error if the encoder rejects the frame
(`enc_video_ok frames` abstracts whether the `frames`-th video encode call
succeeds); (2) accumulates the audio samples for the frame range
`[t, min(t+step, dur)]` and drains the accumulator in `spf`-sized chunks to
the encoder (audio encode calls are modelled as succeeding).  Returns the
counts of encoded video frames and audio chunks plus the leftover
accumulator length. -/
def export_loop (dur step : Int) (spf : Nat) (video_track audio_track : Track)
    (decoders : List String) (decode_ok : String → Int → Bool)
    (clip_samples : Clip → Int → Int → Nat) (enc_video_ok : Nat → Bool)
    (t : Int) (frames chunks buffer : Nat) :
    Except ExportError (Nat × Nat × Nat) :=
  if t < dur ∧ 0 < step then
    match video_step video_track decoders decode_ok t with
    | VideoOutcome.missingDecoder =>
      Except.error (ExportError.Timeline "Decoder not found for source")
    | _ =>
      if enc_video_ok frames then
        let fe := min (t + step) dur
        let buffer2 := buffer + audio_step_samples audio_track spf clip_samples t fe
        export_loop dur step spf video_track audio_track decoders decode_ok
          clip_samples enc_video_ok (t + step) (frames + 1)
          (chunks + buffer2 / spf) (buffer2 % spf)
      else
        Except.error ExportError.Encode
  else
    Except.ok (frames, chunks, buffer)
termination_by (dur - t).toNat
decreasing_by omega

/-- `Exporter::export` around the loop (`src/export/exporter.rs` lines
246-259): after the loop, a non-empty leftover accumulator is padded with
silence to a full chunk and flushed as one more audio chunk.  Returns the
number of encoded video frames and encoded audio chunks. -/
def export_run (tl : Timeline) (step : Int) (spf : Nat)
    (decoders : List String) (decode_ok : String → Int → Bool)
    (clip_samples : Clip → Int → Int → Nat) (enc_video_ok : Nat → Bool) :
    Except ExportError (Nat × Nat) :=
  match export_loop tl.duration step spf tl.video_track tl.audio_track decoders
      decode_ok clip_samples enc_video_ok 0 0 0 0 with
  | Except.error e => Except.error e
  | Except.ok (frames, chunks, buffer) =>
    Except.ok (frames, if buffer = 0 then chunks else chunks + 1)

/-- The bare iteration count of the export loop: starting at `t`, while
`t < dur`, advance by `step`. -/
def loop_iterations (dur step t : Int) : Nat :=
  if t < dur ∧ 0 < step then 1 + loop_iterations dur step (t + step)
  else 0
termination_by (dur - t).toNat
decreasing_by omega

/-- Ceiling-division step identity used for the loop count. -/
theorem ceil_div_step (n s : Nat) (hs : 1 ≤ s) (hn : 1 ≤ n) :
    (n + s - 1) / s = 1 + (n - s + s - 1) / s := by
  have h1 : n + s - 1 = (n - 1) + s := by omega
  rw [h1, Nat.add_div_right _ hs]
  by_cases hcase : s ≤ n
  · have h3 : n - s + s - 1 = n - 1 := by omega
    rw [h3]
    exact Nat.add_comm ((n - 1) / s) 1
  · have h3 : n - s + s - 1 = s - 1 := by omega
    rw [h3, Nat.div_eq_of_lt (show n - 1 < s by omega),
      Nat.div_eq_of_lt (show s - 1 < s by omega)]

/-- The loop count is the ceiling of `(dur - t) / step`. -/
theorem loop_iterations_eq_ceil (dur step : Int) (hstep : 0 < step) :
    ∀ (n : Nat) (t : Int), (dur - t).toNat = n →
      loop_iterations dur step t
        = ((dur - t).toNat + step.toNat - 1) / step.toNat := by
  intro n
  induction n using Nat.strong_induction_on with
  | _ n ih =>
    intro t hn
    by_cases ht : t < dur
    · have hrec : loop_iterations dur step t
          = 1 + loop_iterations dur step (t + step) := by
        conv_lhs => rw [loop_iterations]
        rw [if_pos ⟨ht, hstep⟩]
      have hlt : (dur - (t + step)).toNat < n := by omega
      have hih := ih _ hlt (t + step) rfl
      rw [hrec, hih]
      have hs : 1 ≤ step.toNat := by omega
      have hn1 : 1 ≤ (dur - t).toNat := by omega
      have hrel : (dur - (t + step)).toNat = (dur - t).toNat - step.toNat := by
        omega
      rw [hrel, ceil_div_step _ _ hs hn1]
    · conv_lhs => rw [loop_iterations]
      rw [if_neg (by omega)]
      have h0 : (dur - t).toNat = 0 := by omega
      rw [h0]
      exact (Nat.div_eq_of_lt (by omega)).symm

/-- A video step can never demand a missing decoder when every clip's source
path is in the decoder table (which export setup guarantees: the table is
built from exactly the clips' source paths). -/
theorem video_step_ne_missing (vt : Track) (dec : List String)
    (ok : String → Int → Bool) (u : Int)
    (h : ∀ c ∈ vt.clips, dec.contains c.source_path = true) :
    video_step vt dec ok u ≠ VideoOutcome.missingDecoder := by
  cases hc : vt.clip_at u with
  | none =>
    unfold video_step
    rw [hc]
    simp
  | some clip =>
    have hmem : clip ∈ vt.clips := List.mem_of_find?_eq_some hc
    have hdec := h clip hmem
    unfold video_step
    rw [hc]
    have hdec2 : clip.source_path ∈ dec := by simpa using hdec
    cases hm : clip.timeline_to_source u with
    | none => simp [hm]
    | some s =>
      cases hok : ok clip.source_path s <;> simp [hm, hok, hdec2]

/-- On a timeline without audio clips, with every referenced decoder present
and every encode succeeding, the export loop runs to completion encoding one
video frame and draining exactly one full silence chunk per iteration,
leaving an empty accumulator. -/
theorem export_loop_no_audio (dur step : Int) (spf : Nat) (vt at_ : Track)
    (dec : List String) (ok : String → Int → Bool)
    (cs : Clip → Int → Int → Nat) (hspf : 0 < spf) (hat : at_.clips = [])
    (hvid : ∀ u : Int, video_step vt dec ok u ≠ VideoOutcome.missingDecoder) :
    ∀ (n : Nat) (t : Int) (frames chunks : Nat), (dur - t).toNat = n →
      export_loop dur step spf vt at_ dec ok cs (fun _ => true) t frames chunks 0
        = Except.ok (frames + loop_iterations dur step t,
            (chunks + loop_iterations dur step t, 0)) := by
  intro n
  induction n using Nat.strong_induction_on with
  | _ n ih =>
    intro t frames chunks hn
    by_cases hcond : t < dur ∧ 0 < step
    · have hsamp : audio_step_samples at_ spf cs t (min (t + step) dur) = spf := by
        unfold audio_step_samples
        rw [show at_.clips_in_range t (min (t + step) dur) = [] by
          unfold Track.clips_in_range
          rw [hat]
          exact List.filter_nil _]
        rfl
      have hiter : loop_iterations dur step t
          = 1 + loop_iterations dur step (t + step) := by
        conv_lhs => rw [loop_iterations]
        rw [if_pos hcond]
      have hlt : (dur - (t + step)).toNat < n := by omega
      have hih := ih _ hlt (t + step) (frames + 1) (chunks + 1) rfl
      unfold export_loop
      rw [if_pos hcond]
      cases hvs : video_step vt dec ok t with
      | missingDecoder => exact absurd hvs (hvid t)
      | decoded =>
        simp only [hsamp, Nat.zero_add, Nat.div_self hspf, Nat.mod_self]
        rw [hih, hiter]
        simp [Nat.add_assoc]
      | black =>
        simp only [hsamp, Nat.zero_add, Nat.div_self hspf, Nat.mod_self]
        rw [hih, hiter]
        simp [Nat.add_assoc]
    · have hiter : loop_iterations dur step t = 0 := by
        conv_lhs => rw [loop_iterations]
        rw [if_neg hcond]
      unfold export_loop
      rw [if_neg hcond, hiter]
      simp

/-- The 5-second no-audio scenario run of the export loop: 151 video frames
and 151 full silence chunks, for any decode oracle and any per-clip sample
counts (the audio track is empty, so the latter are never consulted). -/
theorem export_run_scenario_eq (ok : String → Int → Bool)
    (cs : Clip → Int → Int → Nat) :
    export_run (Timeline.new.add_video_clip (Clip.new 1 "v" 0 5000000000 0 0)).1
        frame_duration_ns_30fps samples_per_frame_30fps ["v"] ok cs
        (fun _ => true)
      = Except.ok (151, 151) := by
  have hat : (Timeline.new.add_video_clip
      (Clip.new 1 "v" 0 5000000000 0 0)).1.audio_track.clips = [] := rfl
  have hvp : ∀ c ∈ (Timeline.new.add_video_clip
      (Clip.new 1 "v" 0 5000000000 0 0)).1.video_track.clips,
      (["v"] : List String).contains c.source_path = true := by
    intro c hc
    rw [show (Timeline.new.add_video_clip
        (Clip.new 1 "v" 0 5000000000 0 0)).1.video_track.clips
      = [Clip.new 1 "v" 0 5000000000 0 0] from rfl] at hc
    rw [List.mem_singleton.mp hc]
    rfl
  have hvid : ∀ u : Int, video_step (Timeline.new.add_video_clip
      (Clip.new 1 "v" 0 5000000000 0 0)).1.video_track ["v"]
      ok u ≠ VideoOutcome.missingDecoder :=
    fun u => video_step_ne_missing _ _ _ u hvp
  have hloop := export_loop_no_audio
    (Timeline.new.add_video_clip (Clip.new 1 "v" 0 5000000000 0 0)).1.duration
    frame_duration_ns_30fps samples_per_frame_30fps
    (Timeline.new.add_video_clip (Clip.new 1 "v" 0 5000000000 0 0)).1.video_track
    (Timeline.new.add_video_clip (Clip.new 1 "v" 0 5000000000 0 0)).1.audio_track
    ["v"] ok cs (by decide) hat hvid _ 0 0 0 rfl
  have hcount : loop_iterations (Timeline.new.add_video_clip
      (Clip.new 1 "v" 0 5000000000 0 0)).1.duration frame_duration_ns_30fps 0
      = 151 := by
    rw [loop_iterations_eq_ceil _ _ (by decide) _ 0 rfl]
    decide
  rw [hcount] at hloop
  unfold export_run
  rw [hloop]
  rfl

/-- Counterexample for C2: exporting the 5-second single-video-clip timeline
at 30 fps encodes 151 video frames and 151 audio chunks, not 150 frames and
5 seconds of audio.  `frame_duration_ns = from_seconds(1.0/30.0)` truncates
to `33333333` ns and `150 × 33333333 = 4999999950 < 5000000000`, so the loop
condition `timeline_time < duration` admits a 151st iteration. -/
theorem export_frame_count_counterexample :
    export_run (Timeline.new.add_video_clip (Clip.new 1 "v" 0 5000000000 0 0)).1
        frame_duration_ns_30fps samples_per_frame_30fps ["v"]
        (fun _ _ => true) (fun _ _ _ => 0) (fun _ => true)
      = Except.ok (151, 151) ∧
    (151 : Nat) ≠ 150 ∧
    frame_duration_ns_30fps * 150 < 5000000000 :=
  ⟨export_run_scenario_eq (fun _ _ => true) (fun _ _ _ => 0),
    by decide, by decide⟩

/-- Claim C2 (amended): exporting the Timeline holding one video clip with
source `[0s,5s)` at timeline 0 and no audio clip, at 30 fps (default 48 kHz
audio), encodes exactly 151 video frames — one per loop iteration — and 151
audio chunks of `samples_per_frame = 1600` silence samples each (i.e.
`5 + 1/30` seconds of silence), because
`frame_duration = from_seconds(1.0/30.0) = 33333333` ns and
`150 × 33333333 < 5 s`; in general the export loop starts at timeline time 0
and iterates while `timeline_time < timeline.duration`, advancing by
`frame_duration` each step, for `⌈(duration - 0) / frame_duration⌉`
iterations. -/
theorem export_five_second_scenario (ok : String → Int → Bool)
    (cs : Clip → Int → Int → Nat) :
    frame_duration_ns_30fps = 33333333 ∧
    samples_per_frame_30fps = 1600 ∧
    export_run (Timeline.new.add_video_clip (Clip.new 1 "v" 0 5000000000 0 0)).1
        frame_duration_ns_30fps samples_per_frame_30fps ["v"] ok cs
        (fun _ => true)
      = Except.ok (151, 151) ∧
    (∀ dur step : Int, 0 < step →
      loop_iterations dur step 0 = (dur.toNat + step.toNat - 1) / step.toNat) := by
  refine ⟨by decide, by decide, export_run_scenario_eq ok cs, ?_⟩
  · intro dur step hstep
    have := loop_iterations_eq_ceil dur step hstep _ 0 rfl
    simpa using this

/-- Witness for C2 (amended): the scenario export under an always-succeeding
decoder, and the loop count for `dur = 10`, `step = 3` (4 iterations). -/
theorem export_five_second_scenario_witness :
    export_run (Timeline.new.add_video_clip (Clip.new 1 "v" 0 5000000000 0 0)).1
        frame_duration_ns_30fps samples_per_frame_30fps ["v"]
        (fun _ _ => true) (fun _ _ _ => 1600) (fun _ => true)
      = Except.ok (151, 151) ∧
    loop_iterations 10 3 0 = 4 :=
  ⟨(export_five_second_scenario (fun _ _ => true) (fun _ _ _ => 1600)).2.2.1,
    by
      rw [(export_five_second_scenario (fun _ _ => true)
        (fun _ _ _ => 1600)).2.2.2 10 3 (by decide)]
      decide⟩

/-- Claim C7: during export every frame iteration encodes exactly one video
frame: if no video clip contains the current timeline time, or the clip's
`timeline_to_source` mapping returns no value, or decode fails while a
decoder exists, a full-frame black image is encoded instead and the loop
continues to the next frame; whereas an encode failure aborts the loop
immediately with an encode error, and a referenced source path missing from
the decoder table aborts it immediately with a timeline error. -/
theorem export_black_fallback_and_fatal_errors :
    (∀ (vt : Track) (dec : List String) (ok : String → Int → Bool) (u : Int),
      vt.clip_at u = none → video_step vt dec ok u = VideoOutcome.black) ∧
    (∀ (vt : Track) (dec : List String) (ok : String → Int → Bool) (u : Int)
        (clip : Clip), vt.clip_at u = some clip →
      clip.timeline_to_source u = none →
      video_step vt dec ok u = VideoOutcome.black) ∧
    (∀ (vt : Track) (dec : List String) (ok : String → Int → Bool) (u : Int)
        (clip : Clip) (s : Int), vt.clip_at u = some clip →
      clip.timeline_to_source u = some s →
      dec.contains clip.source_path = true → ok clip.source_path s = false →
      video_step vt dec ok u = VideoOutcome.black) ∧
    (∀ (vt : Track) (dec : List String) (ok : String → Int → Bool) (u : Int)
        (clip : Clip) (s : Int), vt.clip_at u = some clip →
      clip.timeline_to_source u = some s →
      dec.contains clip.source_path = false →
      video_step vt dec ok u = VideoOutcome.missingDecoder) ∧
    (∀ (dur step : Int) (spf : Nat) (vt at_ : Track) (dec : List String)
        (ok : String → Int → Bool) (cs : Clip → Int → Int → Nat)
        (enc : Nat → Bool) (t : Int) (frames chunks buffer : Nat),
      t < dur → 0 < step →
      video_step vt dec ok t ≠ VideoOutcome.missingDecoder →
      enc frames = true →
      export_loop dur step spf vt at_ dec ok cs enc t frames chunks buffer
        = export_loop dur step spf vt at_ dec ok cs enc (t + step) (frames + 1)
            (chunks +
              (buffer + audio_step_samples at_ spf cs t (min (t + step) dur)) / spf)
            ((buffer + audio_step_samples at_ spf cs t (min (t + step) dur)) % spf)) ∧
    (∀ (dur step : Int) (spf : Nat) (vt at_ : Track) (dec : List String)
        (ok : String → Int → Bool) (cs : Clip → Int → Int → Nat)
        (enc : Nat → Bool) (t : Int) (frames chunks buffer : Nat),
      t < dur → 0 < step →
      video_step vt dec ok t = VideoOutcome.missingDecoder →
      export_loop dur step spf vt at_ dec ok cs enc t frames chunks buffer
        = Except.error (ExportError.Timeline "Decoder not found for source")) ∧
    (∀ (dur step : Int) (spf : Nat) (vt at_ : Track) (dec : List String)
        (ok : String → Int → Bool) (cs : Clip → Int → Int → Nat)
        (enc : Nat → Bool) (t : Int) (frames chunks buffer : Nat),
      t < dur → 0 < step →
      video_step vt dec ok t ≠ VideoOutcome.missingDecoder →
      enc frames = false →
      export_loop dur step spf vt at_ dec ok cs enc t frames chunks buffer
        = Except.error ExportError.Encode) := by
  refine ⟨?_, ?_, ?_, ?_, ?_, ?_, ?_⟩
  · intro vt dec ok u hc
    unfold video_step
    rw [hc]
  · intro vt dec ok u clip hc hm
    unfold video_step
    rw [hc]
    simp [hm]
  · intro vt dec ok u clip s hc hm hdec hok
    have hdec2 : clip.source_path ∈ dec := by simpa using hdec
    unfold video_step
    rw [hc]
    simp [hm, hok, hdec2]
  · intro vt dec ok u clip s hc hm hdec
    have hdec2 : clip.source_path ∉ dec := by simpa using hdec
    unfold video_step
    rw [hc]
    simp [hm, hdec2]
  · intro dur step spf vt at_ dec ok cs enc t frames chunks buffer ht hstep hne henc
    conv_lhs => rw [export_loop]
    rw [if_pos ⟨ht, hstep⟩]
    cases hv : video_step vt dec ok t with
    | missingDecoder => exact absurd hv hne
    | decoded => rw [if_pos henc]
    | black => rw [if_pos henc]
  · intro dur step spf vt at_ dec ok cs enc t frames chunks buffer ht hstep hv
    conv_lhs => rw [export_loop]
    rw [if_pos ⟨ht, hstep⟩, hv]
  · intro dur step spf vt at_ dec ok cs enc t frames chunks buffer ht hstep hne henc
    conv_lhs => rw [export_loop]
    rw [if_pos ⟨ht, hstep⟩]
    cases hv : video_step vt dec ok t with
    | missingDecoder => exact absurd hv hne
    | decoded => rw [if_neg (by simp [henc])]
    | black => rw [if_neg (by simp [henc])]

/-- Witness for C7: an empty track yields a black frame; a clip whose source
path is not in the decoder table aborts the loop with a timeline error; an
encoder that rejects the first frame aborts the loop with an encode error. -/
theorem export_black_fallback_and_fatal_errors_witness :
    video_step (Track.new 1 TrackType.Video) [] (fun _ _ => true) 0
      = VideoOutcome.black ∧
    export_loop 1000000000 33333333 1600
        (Track.mk 1 TrackType.Video [Clip.new 1 "x" 0 1000000000 0 0] false)
        (Track.new 2 TrackType.Audio) [] (fun _ _ => true) (fun _ _ _ => 0)
        (fun _ => true) 0 0 0 0
      = Except.error (ExportError.Timeline "Decoder not found for source") ∧
    export_loop 1000000000 33333333 1600
        (Track.mk 1 TrackType.Video [Clip.new 1 "x" 0 1000000000 0 0] false)
        (Track.new 2 TrackType.Audio) ["x"] (fun _ _ => true) (fun _ _ _ => 0)
        (fun _ => false) 0 0 0 0
      = Except.error ExportError.Encode :=
  ⟨export_black_fallback_and_fatal_errors.1 (Track.new 1 TrackType.Video) []
      (fun _ _ => true) 0 rfl,
    export_black_fallback_and_fatal_errors.2.2.2.2.2.1 1000000000 33333333 1600
      (Track.mk 1 TrackType.Video [Clip.new 1 "x" 0 1000000000 0 0] false)
      (Track.new 2 TrackType.Audio) [] (fun _ _ => true) (fun _ _ _ => 0)
      (fun _ => true) 0 0 0 0 (by decide) (by decide) rfl,
    export_black_fallback_and_fatal_errors.2.2.2.2.2.2 1000000000 33333333 1600
      (Track.mk 1 TrackType.Video [Clip.new 1 "x" 0 1000000000 0 0] false)
      (Track.new 2 TrackType.Audio) ["x"] (fun _ _ => true) (fun _ _ _ => 0)
      (fun _ => false) 0 0 0 0 (by decide) (by decide) (by decide) rfl⟩

end AVES
